import Mathlib

/-!
Verification development for scripts/get_alaskan_weather.py.

The script fetches weather, tide and marine-forecast data over HTTP and
renders fixed text reports.  The network layer is impure, so every fetch
becomes a function parameter or an explicit input list here; the pure
extraction, grouping, ordering and formatting logic is embedded directly.

Modelling conventions:
- JSON payloads are embedded as structures holding exactly the fields the
  script reads.  Date components year, mon and mday are stored as Nat,
  since the script always converts them with int().  The hour, min and
  height fields of a tide summary entry are stored as String, because
  _format_tide_data stores and renders them without conversion while
  _format_sunphase_data converts hour and min with int() at use sites
  (embedded as String.toNat!).
- Python exceptions are embedded as Option or Except: a lookup that would
  raise ValueError returns none, and a fetch that may raise returns Except.
- The float temperature value and its fixed-point rendering are abstracted
  as Int and toString; no claim depends on the numeric rendering.
- Python dicts preserve insertion order, so they are embedded as
  association lists where updating an existing key keeps its position and
  a new key is appended at the end.
-/

namespace AlaskanWeather

/-- Calendar date as constructed by datetime.datetime(year, month, day) in
_format_tide_data and compared by tuple equality in _format_sunphase_data. -/
structure TDate where
  year : Nat
  month : Nat
  day : Nat
deriving DecidableEq, Repr

/-- One entry of raw_data_tides, i.e. of the tide tideSummary JSON list: the
date fields and the data fields the script reads. -/
structure TideSummaryEntry where
  year : Nat
  mon : Nat
  mday : Nat
  hour : String
  min : String
  type : String
  height : String
deriving DecidableEq, Repr

/-- The record stored per tide type by _format_tide_data: raw hour, minute
and height strings. -/
structure TideRec where
  hour : String
  minute : String
  height : String
deriving DecidableEq, Repr

/-- The inner per-date dict of _format_tide_data, keyed by the two possible
type strings High Tide and Low Tide. -/
structure DayTides where
  high : Option TideRec
  low : Option TideRec
deriving DecidableEq, Repr

/-- Date key of a tide summary entry, as built by
datetime.datetime(int(year), int(mon), int(mday)). -/
def TideSummaryEntry.dateKey (e : TideSummaryEntry) : TDate :=
  ⟨e.year, e.mon, e.mday⟩

/-- Record built from a tide summary entry by _format_tide_data. -/
def TideSummaryEntry.toRec (e : TideSummaryEntry) : TideRec :=
  ⟨e.hour, e.min, e.height⟩

/-! Fixed ordering tables from the script. -/

/-- The _ORDER_CURRENT_TEMPERATURE table: location key and display name. -/
def _ORDER_CURRENT_TEMPERATURE : List (String × String) := [
  ("homer", "Homer"),
  ("anchor_point", "Anchor Point"),
  ("ninilchik", "Ninilchik"),
  ("kachemak_bay_seldovia", "Seldovia"),
  ("port_graham", "Port Graham"),
  ("nanwalek", "Nanwalek"),
  ("kenai", "Kenai"),
  ("soldotna", "Soldotna"),
  ("cooper_landing", "Cooper Landing"),
  ("anchorage", "Anchorage")
]

/-- The _ORDER_MARINE_FORECAST table of region names. -/
def _ORDER_MARINE_FORECAST : List String := [
  "KACHEMAK BAY",
  "COOK INLET NORTH OF KALGIN ISLAND",
  "COOK INLET KALGIN ISLAND TO POINT BEDE",
  "SHELIKOF STRAIT",
  "BARREN ISLANDS EAST",
  "WEST OF BARREN ISLANDS INCLUDING KAMISHAK BAY",
  "CAPE CLEARE TO GORE POINT"
]

/-! Marine forecast (get_marine_forecast).  The HTTP fetch and the re.split
on the delimiter happen before the logic under test, so the function takes
the already split list of text blocks as input. -/

/-- Test whether re.search(location, forecast) matches.  Every region name
in _ORDER_MARINE_FORECAST consists only of capital letters and spaces, with
no regex metacharacter, so the search is exactly case-sensitive substring
containment. -/
def containsRegion (forecast location : String) : Bool :=
  decide (location.data <:+: forecast.data)

/-- First block of split_text matching the region, i.e. the combination of
idx_found = [bool(re.search(location, f)) for f in split_text].index(True)
with split_text[idx_found].  The list index method raises ValueError when no
True occurs, embedded as none. -/
def marineLookup (split_text : List String) (location : String) : Option String :=
  split_text.find? (fun forecast => containsRegion forecast location)

/-- The loop of get_marine_forecast over _ORDER_MARINE_FORECAST, appending
the first matching block per region; a raised ValueError aborts the whole
call, embedded as none. -/
def orderedForecasts (split_text : List String) : List String → Option (List String)
  | [] => some []
  | location :: rest =>
    match marineLookup split_text location with
    | none => none
    | some block => (orderedForecasts split_text rest).map (fun tail => block :: tail)

/-- Body of get_marine_forecast after fetching and splitting: reorder the
blocks by the fixed region list and concatenate. -/
def get_marine_forecast (split_text : List String) : Option String :=
  (orderedForecasts split_text _ORDER_MARINE_FORECAST).map String.join

/-! Forecast extraction (_format_forecast_data). -/

/-- One entry of the txt_forecast forecastday JSON list, with the fields the
script reads. -/
structure ForecastDay where
  period : Int
  title : String
  fcttext : String
deriving DecidableEq, Repr

/-- Loop of _format_forecast_data: walk the forecastday list in feed order,
break at the first entry whose period equals 4, and collect title and
fcttext pairs of the entries before it. -/
def _format_forecast_data : List ForecastDay → List (String × String)
  | [] => []
  | d :: rest =>
    if d.period == 4 then []
    else (d.title, d.fcttext) :: _format_forecast_data rest

/-! Daylight arithmetic (_get_total_daylight_hours_and_minutes).  The script
divides timedelta.total_seconds() by 60 and applies int() truncation and the
float modulo; for the nonnegative whole-minute differences produced by
subtracting two datetimes on the same date with zero seconds this is exactly
natural division and modulo on the minute count. -/

/-- Split a nonnegative whole-minute daylight duration into hours and
remainder minutes, as _get_total_daylight_hours_and_minutes does. -/
def _get_total_daylight_hours_and_minutes (delta_minutes : Nat) : Nat × Nat :=
  (delta_minutes / 60, delta_minutes % 60)

/-! Current temperature (get_current_temperature). -/

/-- Python max of the display-name lengths of _ORDER_CURRENT_TEMPERATURE,
the string_padding local of get_current_temperature. -/
def string_padding : Nat :=
  (_ORDER_CURRENT_TEMPERATURE.map (fun kc => kc.2.length)).foldl Nat.max 0

/-- Left-aligned padding of the format spec with a given minimum field
width: the string followed by enough spaces to reach the width, and no
truncation when the string is already longer. -/
def ljust (s : String) (w : Nat) : String :=
  s ++ String.mk (List.replicate (w - s.length) ' ')

/-- One line of _STRING_CURRENT_TEMPERATURE_DETAIL: two spaces, the city
field left-aligned in the padding width, two spaces, the temperature, and a
newline. -/
def _STRING_CURRENT_TEMPERATURE_DETAIL_fmt (city : String) (padding : Nat)
    (temperature : String) : String :=
  "  " ++ ljust city padding ++ "  " ++ temperature ++ "\n"

/-- The _STRING_CURRENT_TEMPERATURE template around the joined detail
lines. -/
def _STRING_CURRENT_TEMPERATURE_fmt (current_temperature_detail : String) : String :=
  "\nCurrent temperature\n" ++ current_temperature_detail ++ "\n"

/-- Loop of get_current_temperature: fetch each location in order and render
its detail line; an exception anywhere aborts the whole loop with no partial
output, embedded by the Except short circuit. -/
def tempDetails (fetch : String → Except String Int) (padding : Nat) :
    List (String × String) → Except String (List String)
  | [] => .ok []
  | (key, city) :: rest =>
    match fetch key with
    | .error e => .error e
    | .ok raw_temp =>
      (tempDetails fetch padding rest).map
        (fun tail =>
          _STRING_CURRENT_TEMPERATURE_DETAIL_fmt (city ++ ":") padding (toString raw_temp) :: tail)

/-- Body of get_current_temperature with the per-location HTTP fetch and
JSON field extraction abstracted as the fetch parameter. -/
def get_current_temperature (fetch : String → Except String Int) : Except String String :=
  (tempDetails fetch string_padding _ORDER_CURRENT_TEMPERATURE).map
    (fun details => _STRING_CURRENT_TEMPERATURE_fmt (String.join details))

/-! Tide grouping (_format_tide_data).  The data_tides dict maps a date to
an inner dict keyed by the type string; only the two type strings High Tide
and Low Tide reach the assignment, so the inner dict is embedded as the
DayTides record with one optional slot per type. -/

/-- Assignment into the inner per-date dict: the slot named by the type
string receives the record, overwriting any earlier value.  The guard in
_format_tide_data ensures the type is High Tide or Low Tide, so the else
branch is the Low Tide slot. -/
def dayUpdate (v : DayTides) (ty : String) (r : TideRec) : DayTides :=
  if ty == "High Tide" then { v with high := some r } else { v with low := some r }

/-- The statement data_tides.setdefault(datetime_ak, dict())[type] = record
on the insertion-ordered association list: an existing date keeps its
position and gets its slot overwritten, a new date is appended at the end
starting from the empty inner dict. -/
def updateAssoc (l : List (TDate × DayTides)) (d : TDate) (ty : String)
    (r : TideRec) : List (TDate × DayTides) :=
  match l with
  | [] => [(d, dayUpdate ⟨none, none⟩ ty r)]
  | (k, v) :: rest =>
    if k = d then (k, dayUpdate v ty r) :: rest
    else (k, v) :: updateAssoc rest d ty r

/-- Loop of _format_tide_data over the tideSummary entries: entries whose
type is neither High Tide nor Low Tide are skipped, the rest update the
per-date dict. -/
def _format_tide_data_aux (acc : List (TDate × DayTides)) :
    List TideSummaryEntry → List (TDate × DayTides)
  | [] => acc
  | e :: rest =>
    _format_tide_data_aux
      (if e.type == "High Tide" || e.type == "Low Tide"
       then updateAssoc acc e.dateKey e.type e.toRec
       else acc) rest

/-- Body of _format_tide_data starting from the empty dict. -/
def _format_tide_data (entries : List TideSummaryEntry) : List (TDate × DayTides) :=
  _format_tide_data_aux [] entries

/-! Tide detail rendering (_format_tide_detail_strings). -/

/-- Order on the datetime keys used by sorted(data_tides.items(),
key=lambda dt: dt[0]): datetime instances compare lexicographically on
year, month, day. -/
def dateLeP (a b : TDate) : Prop :=
  a.year < b.year ∨ (a.year = b.year ∧
    (a.month < b.month ∨ (a.month = b.month ∧ a.day ≤ b.day)))

/-- Strict version of the date order. -/
def dateLtP (a b : TDate) : Prop :=
  a.year < b.year ∨ (a.year = b.year ∧
    (a.month < b.month ∨ (a.month = b.month ∧ a.day < b.day)))

instance : DecidableRel dateLeP := fun a b => by
  unfold dateLeP; infer_instance

instance : DecidableRel dateLtP := fun a b => by
  unfold dateLtP; infer_instance

/-- Order on dict items compared by their date key, as the sorted key
function selects. -/
def itemLeP (p q : TDate × DayTides) : Prop := dateLeP p.1 q.1

instance : DecidableRel itemLeP := fun p q => by
  unfold itemLeP; infer_instance

instance : IsTotal (TDate × DayTides) itemLeP := by
  constructor; intro a b; unfold itemLeP dateLeP; omega

instance : IsTrans (TDate × DayTides) itemLeP := by
  constructor; intro a b c; unfold itemLeP dateLeP; omega

/-- Python sorted over the dict items by date key.  With pairwise distinct
keys every comparison sort agrees, so the stable sort of the script is
embedded as insertion sort. -/
def sortTideItems (l : List (TDate × DayTides)) : List (TDate × DayTides) :=
  List.insertionSort itemLeP l

/-- Zero-padded two-digit rendering of the format spec applied to month and
day numbers. -/
def natPad2 (n : Nat) : String :=
  if n < 10 then "0" ++ toString n else toString n

/-- Per-field lookup with the XX default, i.e. tide_high.get(key, XX) where
the inner record, when present, always carries all three fields. -/
def optField (o : Option TideRec) (f : TideRec → String) : String :=
  match o with
  | some r => f r
  | none => "XX"

/-- The _STRING_TIDES_DETAIL template rendered with explicit field
strings. -/
def _STRING_TIDES_DETAIL_fmt (month day high_hour high_minute high_height
    low_hour low_minute low_height : String) : String :=
  "    " ++ month ++ "/" ++ day ++ "\n      High tide:  " ++ high_hour ++ ":" ++
    high_minute ++ " (" ++ high_height ++ ")\n      Low tide:   " ++ low_hour ++
    ":" ++ low_minute ++ " (" ++ low_height ++ ")\n"

/-- Detail block rendered for one date by the loop body of
_format_tide_detail_strings. -/
def tideDetailLine (d : TDate) (v : DayTides) : String :=
  _STRING_TIDES_DETAIL_fmt (natPad2 d.month) (natPad2 d.day)
    (optField v.high TideRec.hour) (optField v.high TideRec.minute)
    (optField v.high TideRec.height)
    (optField v.low TideRec.hour) (optField v.low TideRec.minute)
    (optField v.low TideRec.height)

/-- Body of _format_tide_detail_strings: sort the grouped dates ascending,
render each detail block, join. -/
def _format_tide_detail_strings (data_tides : List (TDate × DayTides)) : String :=
  String.join ((sortTideItems data_tides).map (fun p => tideDetailLine p.1 p.2))

/-! Sun phase extraction (_format_sunphase_data).  The target date comes
from _get_tomorrow_datetime_in_alaska_tz, which reads the clock; it is a
parameter here. -/

/-- Loop of _format_sunphase_data: entries dated other than tomorrow are
skipped; a Sunrise entry overwrites the sunrise hour and minute, a Sunset
entry the sunset hour and minute, both starting from the 0:0 defaults. -/
def sunphaseAux (tomorrow : TDate) (acc : (Nat × Nat) × (Nat × Nat)) :
    List TideSummaryEntry → (Nat × Nat) × (Nat × Nat)
  | [] => acc
  | e :: rest =>
    if e.dateKey ≠ tomorrow then sunphaseAux tomorrow acc rest
    else
      let hm := (e.hour.toNat!, e.min.toNat!)
      let acc1 := if e.type == "Sunrise" then (hm, acc.2) else acc
      let acc2 := if e.type == "Sunset" then (acc1.1, hm) else acc1
      sunphaseAux tomorrow acc2 rest

/-- Body of _format_sunphase_data: the sunrise and sunset of tomorrow as
hour and minute pairs, defaulting to 00:00 of that date. -/
def _format_sunphase_data (entries : List TideSummaryEntry) (tomorrow : TDate) :
    (Nat × Nat) × (Nat × Nat) :=
  sunphaseAux tomorrow ((0, 0), (0, 0)) entries

/-- Minutes since midnight of an hour and minute pair. -/
def minutesOfDay (hm : Nat × Nat) : Nat := hm.1 * 60 + hm.2

/-- Daylight computation of get_sunphase_and_tides on the extracted sun
phase: sunset minus sunrise on the same date, split into hours and minutes.
Both datetimes share the date of tomorrow, so the difference is the minute
difference; the embedding covers the nonnegative case, which includes the
0:0 defaults. -/
def daylightOf (sp : (Nat × Nat) × (Nat × Nat)) : Nat × Nat :=
  _get_total_daylight_hours_and_minutes (minutesOfDay sp.2 - minutesOfDay sp.1)

/-! Specification-side helpers used to state properties of the grouped tide
dict. -/

/-- Lookup of a date key in the association list embedding of the tide
dict. -/
def lookupDate : List (TDate × DayTides) → TDate → Option DayTides
  | [], _ => none
  | (k, v) :: rest, d => if k = d then some v else lookupDate rest d

/-- High Tide slot recorded for a date by the grouping. -/
def highAt (l : List (TDate × DayTides)) (d : TDate) : Option TideRec :=
  (lookupDate l d).bind DayTides.high

/-- Low Tide slot recorded for a date by the grouping. -/
def lowAt (l : List (TDate × DayTides)) (d : TDate) : Option TideRec :=
  (lookupDate l d).bind DayTides.low

/-- Record of the last entry in feed order with the given type string and
date, if any. -/
def lastRecOf (entries : List TideSummaryEntry) (ty : String) (d : TDate) :
    Option TideRec :=
  ((entries.filter (fun e => e.type == ty && e.dateKey == d)).map
    TideSummaryEntry.toRec).getLast?

/-! Concrete inputs used by counterexamples and witnesses. -/

/-- Forecast feed with five entries and no period value 4: the loop never
breaks and returns all five entries. -/
def c1CexDays : List ForecastDay :=
  [⟨0, "Monday", "p0"⟩, ⟨1, "Monday Night", "p1"⟩, ⟨2, "Tuesday", "p2"⟩,
   ⟨3, "Tuesday Night", "p3"⟩, ⟨5, "Wednesday", "p5"⟩]

/-- Forecast feed with six entries whose period values are the feed
positions 0 through 5. -/
def c1WitnessDays : List ForecastDay :=
  [⟨0, "Monday", "p0"⟩, ⟨1, "Monday Night", "p1"⟩, ⟨2, "Tuesday", "p2"⟩,
   ⟨3, "Tuesday Night", "p3"⟩, ⟨4, "Wednesday", "p4"⟩, ⟨5, "Wednesday Night", "p5"⟩]

/-- Marine feed blocks containing every region name once, used as a
concrete witness input. -/
def c2Blocks : List String := _ORDER_MARINE_FORECAST

/-- Marine feed blocks containing no region name, used as a concrete
witness input for the failure case. -/
def c3Blocks : List String := ["nothing relevant here"]

/-- Fetch that fails for every location, modelling a network error raised
by requests.get. -/
def c8Fetch : String → Except String Int := fun _ => .error "connection refused"

/-- Tide summary entry that is neither a Sunrise nor a Sunset, used as a
concrete witness input for the sun-phase defaults. -/
def c10Entry : TideSummaryEntry := ⟨2020, 1, 2, "06", "00", "High Tide", "3 ft"⟩

/-! Helper lemmas. -/

/-- Length of the left-aligned padded field: padding never truncates. -/
theorem ljust_length (s : String) (w : Nat) :
    (ljust s w).length = Nat.max s.length w := by
  have hmk : (String.mk (List.replicate (w - s.length) ' ')).length =
      w - s.length := by
    show (List.replicate (w - s.length) ' ').length = w - s.length
    simp
  simp only [ljust, String.length_append, hmk, Nat.max_def]
  split <;> omega

/-- Claim C4: for sunrise and sunset on the same date with sunset at or
after sunrise, the daylight duration is the minute difference split by
integer division and modulo into whole hours and remainder minutes, and
sunrise 06:00 with sunset 22:30 yields 16 hours and 30 minutes. -/
theorem C4_daylight_duration (sunriseH sunriseM sunsetH sunsetM : Nat)
    (_h : sunriseH * 60 + sunriseM ≤ sunsetH * 60 + sunsetM) :
    _get_total_daylight_hours_and_minutes
        ((sunsetH * 60 + sunsetM) - (sunriseH * 60 + sunriseM)) =
      (((sunsetH * 60 + sunsetM) - (sunriseH * 60 + sunriseM)) / 60,
       ((sunsetH * 60 + sunsetM) - (sunriseH * 60 + sunriseM)) % 60) ∧
    (_get_total_daylight_hours_and_minutes
        ((sunsetH * 60 + sunsetM) - (sunriseH * 60 + sunriseM))).1 * 60 +
      (_get_total_daylight_hours_and_minutes
        ((sunsetH * 60 + sunsetM) - (sunriseH * 60 + sunriseM))).2 =
      (sunsetH * 60 + sunsetM) - (sunriseH * 60 + sunriseM) ∧
    (_get_total_daylight_hours_and_minutes
        ((sunsetH * 60 + sunsetM) - (sunriseH * 60 + sunriseM))).2 < 60 ∧
    _get_total_daylight_hours_and_minutes ((22 * 60 + 30) - (6 * 60 + 0)) =
      (16, 30) := by
  refine ⟨rfl, ?_, ?_, by decide⟩
  · simp only [_get_total_daylight_hours_and_minutes]
    omega
  · simp only [_get_total_daylight_hours_and_minutes]
    omega

/-- Witness for C4 at sunrise 06:00 and sunset 22:30. -/
theorem C4_daylight_duration_witness :
    6 * 60 + 0 ≤ 22 * 60 + 30 ∧
    _get_total_daylight_hours_and_minutes ((22 * 60 + 30) - (6 * 60 + 0)) =
      (16, 30) :=
  ⟨by decide, (C4_daylight_duration 6 0 22 30 (by decide)).2.2.2⟩

/-- Joining a single string is that string. -/
theorem join_singleton (s : String) : String.join [s] = s := by
  obtain ⟨data⟩ := s
  rfl

/-- Claim C5: a date with only one of the two tide kinds renders the
literal XX placeholder for each missing hour, minute and height field; the
renderer is total, so no input fails and no field renders empty. -/
theorem C5_missing_tide_placeholder (d : TDate) (hi lo : TideRec) :
    tideDetailLine d ⟨some hi, none⟩ =
      _STRING_TIDES_DETAIL_fmt (natPad2 d.month) (natPad2 d.day)
        hi.hour hi.minute hi.height "XX" "XX" "XX" ∧
    tideDetailLine d ⟨none, some lo⟩ =
      _STRING_TIDES_DETAIL_fmt (natPad2 d.month) (natPad2 d.day)
        "XX" "XX" "XX" lo.hour lo.minute lo.height ∧
    _format_tide_detail_strings [(d, ⟨some hi, none⟩)] =
      tideDetailLine d ⟨some hi, none⟩ := by
  refine ⟨rfl, rfl, ?_⟩
  show String.join [tideDetailLine d ⟨some hi, none⟩] = tideDetailLine d ⟨some hi, none⟩
  exact join_singleton _

/-- Claim C7: the padding width of the current-temperature report equals
the length of Cooper Landing, the longest display name of the ten fixed
locations, every display name fits in that width, and every rendered city
field has at least that width. -/
theorem C7_padding_width :
    string_padding = ("Cooper Landing" : String).length ∧
    "Cooper Landing" ∈ _ORDER_CURRENT_TEMPERATURE.map Prod.snd ∧
    (∀ kc ∈ _ORDER_CURRENT_TEMPERATURE, kc.2.length ≤ string_padding) ∧
    (∀ kc ∈ _ORDER_CURRENT_TEMPERATURE,
      (ljust (kc.2 ++ ":") string_padding).length =
        Nat.max (kc.2.length + 1) string_padding) := by
  refine ⟨by decide, by decide, by decide, ?_⟩
  intro kc _
  rw [ljust_length, String.length_append]
  rfl

/-! Claim C1: forecast extraction. -/

/-- Claim C1 fails as stated: on a feed with five entries none of which has
period value 4, the loop never breaks and all five entries are returned, so
the output is not bounded by 4 for arbitrary payloads. -/
theorem C1_forecast_cutoff_counterexample :
    ¬ ((_format_forecast_data c1CexDays).length ≤ 4) := by decide

/-- Generalized cutoff: when the period values continue the count from k,
the loop keeps exactly the entries before the count reaches 4. -/
theorem format_forecast_shift (days : List ForecastDay) :
    ∀ (k : Nat), k ≤ 4 →
      (∀ (i : Nat) (h : i < days.length), (days.get ⟨i, h⟩).period = ((k + i : Nat) : Int)) →
      _format_forecast_data days =
        (days.take (4 - k)).map (fun d => (d.title, d.fcttext)) := by
  induction days with
  | nil => intro k _ _; simp [_format_forecast_data]
  | cons d rest ih =>
    intro k hk hp
    have hd : d.period = ((k : Nat) : Int) := by
      have := hp 0 (by simp)
      simpa using this
    have hrest : ∀ (i : Nat) (h : i < rest.length),
        (rest.get ⟨i, h⟩).period = (((k + 1) + i : Nat) : Int) := by
      intro i h
      have h2 : i + 1 < (d :: rest).length := by simp; omega
      have := hp (i + 1) h2
      have hg : (d :: rest).get ⟨i + 1, h2⟩ = rest.get ⟨i, h⟩ := rfl
      rw [hg] at this
      rw [this]
      congr 1
      omega
    by_cases hk4 : k = 4
    · subst hk4
      have hb : (d.period == 4) = true := by
        rw [hd]; rfl
      simp [_format_forecast_data, hb]
    · have hklt : k < 4 := lt_of_le_of_ne hk hk4
      have hb : (d.period == 4) = false := by
        rw [hd]
        simp only [beq_eq_false_iff_ne, ne_eq]
        intro hcontra
        omega
      rw [show (4 : Nat) - k = (4 - (k + 1)) + 1 by omega]
      simp only [_format_forecast_data, hb, Bool.false_eq_true, if_false,
        List.take_succ_cons, List.map_cons]
      rw [ih (k + 1) (by omega) hrest]

/-- Claim C1, amended: the extraction returns, in feed order, the title and
text of the entries strictly before the first entry whose period value is
4; when the period values are the 0-based feed positions, as in the
wunderground feed, this is the first four entries, hence at most 4 entries
regardless of feed length. -/
theorem C1_forecast_cutoff (days : List ForecastDay)
    (hp : ∀ (i : Nat) (h : i < days.length), (days.get ⟨i, h⟩).period = (i : Int)) :
    _format_forecast_data days = (days.take 4).map (fun d => (d.title, d.fcttext)) ∧
    (_format_forecast_data days).length ≤ 4 := by
  have h0 : ∀ (i : Nat) (h : i < days.length),
      (days.get ⟨i, h⟩).period = ((0 + i : Nat) : Int) := by
    intro i h
    rw [hp i h]
    congr 1
    omega
  have hmain := format_forecast_shift days 0 (by omega) h0
  refine ⟨by simpa using hmain, ?_⟩
  rw [hmain]
  simp only [List.length_map, List.length_take]
  omega

/-- Witness for C1 on a six-entry feed with period values 0 through 5. -/
theorem C1_forecast_cutoff_witness :
    _format_forecast_data c1WitnessDays =
      (c1WitnessDays.take 4).map (fun d => (d.title, d.fcttext)) ∧
    (_format_forecast_data c1WitnessDays).length ≤ 4 :=
  C1_forecast_cutoff c1WitnessDays (by decide)

/-! Claims C2 and C3: marine forecast reordering. -/

/-- When every region in the list occurs in some block, the loop returns
for each region the first matching block, in region-list order. -/
theorem orderedForecasts_all_found (split_text : List String) (locations : List String)
    (h : ∀ loc ∈ locations, ∃ b ∈ split_text, containsRegion b loc = true) :
    orderedForecasts split_text locations =
      some (locations.map (fun loc => (marineLookup split_text loc).getD "")) := by
  induction locations with
  | nil => rfl
  | cons loc rest ih =>
    obtain ⟨hb, hrest⟩ := List.forall_mem_cons.mp h
    obtain ⟨b, hbmem, hbc⟩ := hb
    obtain ⟨blk, hblk⟩ : ∃ blk, marineLookup split_text loc = some blk := by
      cases hf : marineLookup split_text loc with
      | some blk => exact ⟨blk, rfl⟩
      | none =>
        exact absurd hbc (by simpa using List.find?_eq_none.mp hf b hbmem)
    rw [orderedForecasts, hblk, ih hrest]
    simp [hblk]

/-- When some region in the list occurs in no block, the loop aborts with
no output. -/
theorem orderedForecasts_missing (split_text : List String) (locations : List String)
    (loc : String) (hmem : loc ∈ locations)
    (hall : ∀ b ∈ split_text, containsRegion b loc = false) :
    orderedForecasts split_text locations = none := by
  induction locations with
  | nil => cases hmem
  | cons l rest ih =>
    rw [orderedForecasts]
    rcases List.mem_cons.mp hmem with rfl | hmem2
    · have hnone : marineLookup split_text loc = none := by
        rw [marineLookup]
        exact List.find?_eq_none.mpr (fun b hb => by simp [hall b hb])
      rw [hnone]
    · cases hf : marineLookup split_text l with
      | none => rfl
      | some blk => rw [ih hmem2]; rfl

/-- Claim C2: when every fixed region name occurs as a substring of some
block, get_marine_forecast returns the concatenation, in the fixed region
order, of the first block containing each region name. -/
theorem C2_marine_region_order (split_text : List String)
    (h : ∀ loc ∈ _ORDER_MARINE_FORECAST, ∃ b ∈ split_text, containsRegion b loc = true) :
    get_marine_forecast split_text =
      some (String.join (_ORDER_MARINE_FORECAST.map
        (fun loc => ((split_text.find? (fun b => containsRegion b loc)).getD "")))) := by
  rw [get_marine_forecast, orderedForecasts_all_found split_text _ h]
  rfl

/-- Witness for C2 on a block list carrying every region name. -/
theorem C2_marine_region_order_witness :
    (∀ loc ∈ _ORDER_MARINE_FORECAST, ∃ b ∈ c2Blocks, containsRegion b loc = true) ∧
    get_marine_forecast c2Blocks =
      some (String.join (_ORDER_MARINE_FORECAST.map
        (fun loc => ((c2Blocks.find? (fun b => containsRegion b loc)).getD "")))) :=
  ⟨by decide, C2_marine_region_order c2Blocks (by decide)⟩

/-- Claim C3: when some fixed region name occurs in no block,
get_marine_forecast fails with no partial output, the embedding of the
ValueError raised by the index method. -/
theorem C3_marine_missing_region (split_text : List String)
    (h : ∃ loc ∈ _ORDER_MARINE_FORECAST, ∀ b ∈ split_text, containsRegion b loc = false) :
    get_marine_forecast split_text = none := by
  obtain ⟨loc, hmem, hall⟩ := h
  rw [get_marine_forecast, orderedForecasts_missing split_text _ loc hmem hall]
  rfl

/-- Witness for C3 on a block list missing every region name. -/
theorem C3_marine_missing_region_witness :
    (∃ loc ∈ _ORDER_MARINE_FORECAST, ∀ b ∈ c3Blocks, containsRegion b loc = false) ∧
    get_marine_forecast c3Blocks = none :=
  ⟨⟨"KACHEMAK BAY", by decide, by decide⟩,
   C3_marine_missing_region c3Blocks ⟨"KACHEMAK BAY", by decide, by decide⟩⟩

/-! Claim C8: current-temperature error propagation. -/

/-- A failing fetch anywhere in the location list aborts the loop with an
error and no partial output. -/
theorem tempDetails_error (fetch : String → Except String Int) (padding : Nat)
    (locations : List (String × String))
    (h : ∃ kc ∈ locations, ∃ e, fetch kc.1 = .error e) :
    ∃ e, tempDetails fetch padding locations = .error e := by
  induction locations with
  | nil => simp at h
  | cons kc rest ih =>
    obtain ⟨key, city⟩ := kc
    obtain ⟨kc2, hmem, e, he⟩ := h
    rcases List.mem_cons.mp hmem with rfl | hmem2
    · exact ⟨e, by rw [tempDetails, he]⟩
    · cases hf : fetch key with
      | error e2 => exact ⟨e2, by rw [tempDetails, hf]⟩
      | ok t =>
        obtain ⟨e3, he3⟩ := ih ⟨kc2, hmem2, e, he⟩
        exact ⟨e3, by rw [tempDetails, hf, he3]; rfl⟩

/-- Claim C8: when any location fetch fails, the whole current-temperature
report fails; no error is caught along the way, so the failure surfaces to
the caller and no partial report is produced. -/
theorem C8_temperature_error_propagation (fetch : String → Except String Int)
    (h : ∃ kc ∈ _ORDER_CURRENT_TEMPERATURE, ∃ e, fetch kc.1 = .error e) :
    ∃ e, get_current_temperature fetch = .error e := by
  obtain ⟨e, he⟩ := tempDetails_error fetch string_padding _ORDER_CURRENT_TEMPERATURE h
  exact ⟨e, by rw [get_current_temperature, he]; rfl⟩

/-- Witness for C8 with a fetch failing on every location. -/
theorem C8_temperature_error_propagation_witness :
    (∃ kc ∈ _ORDER_CURRENT_TEMPERATURE, ∃ e, c8Fetch kc.1 = .error e) ∧
    ∃ e, get_current_temperature c8Fetch = .error e :=
  ⟨⟨("homer", "Homer"), by decide, "connection refused", rfl⟩,
   C8_temperature_error_propagation c8Fetch
     ⟨("homer", "Homer"), by decide, "connection refused", rfl⟩⟩

/-! Claim C10: sun-phase defaults. -/

/-- Without a Sunrise entry dated tomorrow, the sunrise component keeps the
starting value of the loop accumulator. -/
theorem sunphase_no_sunrise (tomorrow : TDate) (entries : List TideSummaryEntry) :
    ∀ (acc : (Nat × Nat) × (Nat × Nat)),
      (∀ e ∈ entries, ¬(e.type = "Sunrise" ∧ e.dateKey = tomorrow)) →
      (sunphaseAux tomorrow acc entries).1 = acc.1 := by
  induction entries with
  | nil => intro acc _; rfl
  | cons e rest ih =>
    intro acc h
    obtain ⟨he, hrest⟩ := List.forall_mem_cons.mp h
    rw [sunphaseAux]
    by_cases hdk : e.dateKey = tomorrow
    · have htype : e.type ≠ "Sunrise" := fun hc => he ⟨hc, hdk⟩
      have hb1 : (e.type == "Sunrise") = false := by
        simpa using htype
      simp only [hdk, ne_eq, not_true_eq_false, if_false, hb1, Bool.false_eq_true]
      by_cases hb2 : (e.type == "Sunset") = true
      · simp only [hb2, if_true]
        exact ih _ hrest
      · simp only [hb2, if_false]
        exact ih _ hrest
    · simp only [ne_eq, hdk, not_false_eq_true, if_true]
      exact ih _ hrest

/-- Without a Sunset entry dated tomorrow, the sunset component keeps the
starting value of the loop accumulator. -/
theorem sunphase_no_sunset (tomorrow : TDate) (entries : List TideSummaryEntry) :
    ∀ (acc : (Nat × Nat) × (Nat × Nat)),
      (∀ e ∈ entries, ¬(e.type = "Sunset" ∧ e.dateKey = tomorrow)) →
      (sunphaseAux tomorrow acc entries).2 = acc.2 := by
  induction entries with
  | nil => intro acc _; rfl
  | cons e rest ih =>
    intro acc h
    obtain ⟨he, hrest⟩ := List.forall_mem_cons.mp h
    rw [sunphaseAux]
    by_cases hdk : e.dateKey = tomorrow
    · have htype : e.type ≠ "Sunset" := fun hc => he ⟨hc, hdk⟩
      have hb2 : (e.type == "Sunset") = false := by
        simpa using htype
      simp only [hdk, ne_eq, not_true_eq_false, if_false, hb2, Bool.false_eq_true]
      by_cases hb1 : (e.type == "Sunrise") = true
      · simp only [hb1, if_true]
        exact ih _ hrest
      · simp only [hb1, if_false]
        exact ih _ hrest
    · simp only [ne_eq, hdk, not_false_eq_true, if_true]
      exact ih _ hrest

/-- Claim C10: a payload with no Sunrise entry dated tomorrow yields the
00:00 sunrise default instead of failing, likewise for Sunset, and with
both missing the reported daylight duration is 0 hours and 0 minutes. -/
theorem C10_sunphase_defaults (entries : List TideSummaryEntry) (tomorrow : TDate) :
    ((∀ e ∈ entries, ¬(e.type = "Sunrise" ∧ e.dateKey = tomorrow)) →
      (_format_sunphase_data entries tomorrow).1 = (0, 0)) ∧
    ((∀ e ∈ entries, ¬(e.type = "Sunset" ∧ e.dateKey = tomorrow)) →
      (_format_sunphase_data entries tomorrow).2 = (0, 0)) ∧
    ((∀ e ∈ entries, ¬(e.type = "Sunrise" ∧ e.dateKey = tomorrow)) →
     (∀ e ∈ entries, ¬(e.type = "Sunset" ∧ e.dateKey = tomorrow)) →
      daylightOf (_format_sunphase_data entries tomorrow) = (0, 0)) := by
  refine ⟨?_, ?_, ?_⟩
  · intro h
    exact sunphase_no_sunrise tomorrow entries ((0, 0), (0, 0)) h
  · intro h
    exact sunphase_no_sunset tomorrow entries ((0, 0), (0, 0)) h
  · intro h1 h2
    have e1 := sunphase_no_sunrise tomorrow entries ((0, 0), (0, 0)) h1
    have e2 := sunphase_no_sunset tomorrow entries ((0, 0), (0, 0)) h2
    rw [daylightOf, _format_sunphase_data, e1, e2]
    rfl

/-- Witness for C10 on a payload holding only a High Tide entry. -/
theorem C10_sunphase_defaults_witness :
    (_format_sunphase_data [c10Entry] ⟨2020, 1, 2⟩).1 = (0, 0) ∧
    (_format_sunphase_data [c10Entry] ⟨2020, 1, 2⟩).2 = (0, 0) ∧
    daylightOf (_format_sunphase_data [c10Entry] ⟨2020, 1, 2⟩) = (0, 0) :=
  ⟨(C10_sunphase_defaults [c10Entry] ⟨2020, 1, 2⟩).1 (by decide),
   (C10_sunphase_defaults [c10Entry] ⟨2020, 1, 2⟩).2.1 (by decide),
   (C10_sunphase_defaults [c10Entry] ⟨2020, 1, 2⟩).2.2 (by decide) (by decide)⟩

/-! Claims C6 and C9: tide grouping.  The lemmas below track the key list
of the association-list embedding of the per-date dict. -/

/-- Updating a date already present leaves the key list unchanged. -/
theorem updateAssoc_keys_mem (l : List (TDate × DayTides)) (d : TDate)
    (ty : String) (r : TideRec) (hmem : d ∈ l.map Prod.fst) :
    (updateAssoc l d ty r).map Prod.fst = l.map Prod.fst := by
  induction l with
  | nil => simp at hmem
  | cons kv rest ih =>
    obtain ⟨k, v⟩ := kv
    by_cases hk : k = d
    · simp [updateAssoc, hk]
    · have hmem2 : d ∈ rest.map Prod.fst := by
        rcases List.mem_cons.mp hmem with hc | hc
        · exact absurd hc.symm hk
        · exact hc
      simp [updateAssoc, hk, ih hmem2]

/-- Updating a date not yet present appends it at the end of the key
list. -/
theorem updateAssoc_keys_notmem (l : List (TDate × DayTides)) (d : TDate)
    (ty : String) (r : TideRec) (hmem : d ∉ l.map Prod.fst) :
    (updateAssoc l d ty r).map Prod.fst = l.map Prod.fst ++ [d] := by
  induction l with
  | nil => simp [updateAssoc]
  | cons kv rest ih =>
    obtain ⟨k, v⟩ := kv
    have hk : ¬(k = d) := by
      intro hc
      exact hmem (by simp [hc])
    have hmem2 : d ∉ rest.map Prod.fst := by
      intro hc
      exact hmem (by simp [hc])
    simp [updateAssoc, hk, ih hmem2]

/-- Updating preserves distinctness of the date keys. -/
theorem updateAssoc_nodup (l : List (TDate × DayTides)) (d : TDate)
    (ty : String) (r : TideRec) (h : (l.map Prod.fst).Nodup) :
    ((updateAssoc l d ty r).map Prod.fst).Nodup := by
  by_cases hm : d ∈ l.map Prod.fst
  · rw [updateAssoc_keys_mem l d ty r hm]
    exact h
  · rw [updateAssoc_keys_notmem l d ty r hm, ← List.concat_eq_append]
    exact List.Nodup.concat hm h

/-- The grouping loop preserves distinctness of the date keys. -/
theorem tide_aux_nodup (entries : List TideSummaryEntry) :
    ∀ (acc : List (TDate × DayTides)), (acc.map Prod.fst).Nodup →
      ((_format_tide_data_aux acc entries).map Prod.fst).Nodup := by
  induction entries with
  | nil => intro acc h; exact h
  | cons e rest ih =>
    intro acc h
    rw [_format_tide_data_aux]
    by_cases hg : (e.type == "High Tide" || e.type == "Low Tide") = true
    · simp only [hg, if_true]
      exact ih _ (updateAssoc_nodup acc e.dateKey e.type e.toRec h)
    · simp only [hg, if_false]
      exact ih _ h

/-- Every key of the updated dict is the updated date or an existing
key. -/
theorem updateAssoc_key_origin (l : List (TDate × DayTides)) (d : TDate)
    (ty : String) (r : TideRec) (dd : TDate)
    (hmem : dd ∈ (updateAssoc l d ty r).map Prod.fst) :
    dd = d ∨ dd ∈ l.map Prod.fst := by
  by_cases hm : d ∈ l.map Prod.fst
  · rw [updateAssoc_keys_mem l d ty r hm] at hmem
    exact Or.inr hmem
  · rw [updateAssoc_keys_notmem l d ty r hm] at hmem
    rcases List.mem_append.mp hmem with hc | hc
    · exact Or.inr hc
    · exact Or.inl (by simpa using hc)

/-- Every date in the grouped dict is the date of some High Tide or Low
Tide entry of the feed. -/
theorem tide_aux_key_source (entries : List TideSummaryEntry) :
    ∀ (acc : List (TDate × DayTides)) (p : TDate × DayTides),
      p ∈ _format_tide_data_aux acc entries →
      p.1 ∈ acc.map Prod.fst ∨
        ∃ e ∈ entries, (e.type = "High Tide" ∨ e.type = "Low Tide") ∧ p.1 = e.dateKey := by
  induction entries with
  | nil =>
    intro acc p hp
    exact Or.inl (List.mem_map_of_mem Prod.fst hp)
  | cons e rest ih =>
    intro acc p hp
    rw [_format_tide_data_aux] at hp
    by_cases hg : (e.type == "High Tide" || e.type == "Low Tide") = true
    · simp only [hg, if_true] at hp
      rcases ih _ p hp with hacc | ⟨e2, he2, hty2, hk2⟩
      · rcases updateAssoc_key_origin acc e.dateKey e.type e.toRec p.1 hacc with hd | hold
        · refine Or.inr ⟨e, by simp, ?_, hd⟩
          simpa using hg
        · exact Or.inl hold
      · exact Or.inr ⟨e2, by simp [he2], hty2, hk2⟩
    · simp only [hg, if_false] at hp
      rcases ih _ p hp with hacc | ⟨e2, he2, hty2, hk2⟩
      · exact Or.inl hacc
      · exact Or.inr ⟨e2, by simp [he2], hty2, hk2⟩

/-- A nonstrict date order together with distinctness gives the strict
date order. -/
theorem dateLeP_ne_lt (a b : TDate) (hle : dateLeP a b) (hne : a ≠ b) :
    dateLtP a b := by
  obtain ⟨ay, am, ad⟩ := a
  obtain ⟨by_, bm, bd⟩ := b
  simp only [dateLeP, dateLtP] at hle ⊢
  have hne2 : ¬(ay = by_ ∧ am = bm ∧ ad = bd) := by
    intro hc
    obtain ⟨h1, h2, h3⟩ := hc
    exact hne (by simp [h1, h2, h3])
  omega

/-- Claim C6: the rendered tide details visit the grouped dates in strictly
ascending date order, and only High Tide and Low Tide entries contribute
dates to the grouping. -/
theorem C6_tide_grouping_sorted (entries : List TideSummaryEntry) :
    List.Pairwise (fun p q : TDate × DayTides => dateLtP p.1 q.1)
      (sortTideItems (_format_tide_data entries)) ∧
    ∀ p ∈ _format_tide_data entries, ∃ e ∈ entries,
      (e.type = "High Tide" ∨ e.type = "Low Tide") ∧ p.1 = e.dateKey := by
  constructor
  · have hnodup : ((_format_tide_data entries).map Prod.fst).Nodup :=
      tide_aux_nodup entries [] (by simp)
    have hsorted : List.Pairwise itemLeP (sortTideItems (_format_tide_data entries)) :=
      List.sorted_insertionSort itemLeP (_format_tide_data entries)
    have hperm := List.perm_insertionSort itemLeP (_format_tide_data entries)
    have hnodup2 : ((sortTideItems (_format_tide_data entries)).map Prod.fst).Nodup :=
      ((hperm.map Prod.fst).symm.nodup hnodup)
    have hne : List.Pairwise (fun p q : TDate × DayTides => p.1 ≠ q.1)
        (sortTideItems (_format_tide_data entries)) :=
      List.pairwise_map.mp hnodup2
    exact (hsorted.and hne).imp (fun hab => dateLeP_ne_lt _ _ hab.1 hab.2)
  · intro p hp
    rcases tide_aux_key_source entries [] p hp with hacc | hsrc
    · simp at hacc
    · exact hsrc

/-- Lookup of the date just updated: the slot assignment lands on the inner
dict of that date, starting from the empty one when the date is new. -/
theorem lookup_updateAssoc_self (l : List (TDate × DayTides)) (d : TDate)
    (ty : String) (r : TideRec) :
    lookupDate (updateAssoc l d ty r) d =
      some (dayUpdate ((lookupDate l d).getD ⟨none, none⟩) ty r) := by
  induction l with
  | nil => simp [updateAssoc, lookupDate]
  | cons kv rest ih =>
    obtain ⟨k, v⟩ := kv
    by_cases hk : k = d
    · simp [updateAssoc, lookupDate, hk]
    · simp [updateAssoc, lookupDate, hk, ih]

/-- Lookup of any other date is unchanged by the update. -/
theorem lookup_updateAssoc_other (l : List (TDate × DayTides)) (d : TDate)
    (ty : String) (r : TideRec) (dd : TDate) (hne : dd ≠ d) :
    lookupDate (updateAssoc l d ty r) dd = lookupDate l dd := by
  induction l with
  | nil => simp [updateAssoc, lookupDate, Ne.symm hne]
  | cons kv rest ih =>
    obtain ⟨k, v⟩ := kv
    by_cases hk : k = d
    · subst hk
      simp [updateAssoc, lookupDate, Ne.symm hne]
    · simp [updateAssoc, lookupDate, hk, ih]

/-- Last element of a nonempty list, phrased through Option.or. -/
theorem getLast?_cons_or {α : Type} (x : α) (xs : List α) :
    (x :: xs).getLast? = xs.getLast?.or (some x) := by
  induction xs generalizing x with
  | nil => simp
  | cons y ys ih =>
    rw [List.getLast?_cons_cons, ih y]
    cases ys.getLast? <;> simp

/-- One step of the last-matching-record computation. -/
theorem lastRecOf_cons (e : TideSummaryEntry) (rest : List TideSummaryEntry)
    (ty : String) (d : TDate) :
    lastRecOf (e :: rest) ty d =
      (lastRecOf rest ty d).or
        (if e.type == ty && e.dateKey == d then some e.toRec else none) := by
  by_cases hc : (e.type == ty && e.dateKey == d) = true
  · simp only [lastRecOf, List.filter_cons, hc, if_true, List.map_cons]
    rw [getLast?_cons_or]
  · simp only [lastRecOf, List.filter_cons, hc]
    simp [hc]

/-- One loop step of the grouping, seen through the High Tide slot of a
date: a High Tide entry for that date overwrites the slot, every other
entry leaves it unchanged. -/
theorem highAt_step (acc : List (TDate × DayTides)) (e : TideSummaryEntry) (d : TDate) :
    highAt (if e.type == "High Tide" || e.type == "Low Tide"
            then updateAssoc acc e.dateKey e.type e.toRec else acc) d =
      (if e.type == "High Tide" && e.dateKey == d then some e.toRec else none).or
        (highAt acc d) := by
  by_cases hht : e.type = "High Tide"
  · by_cases hd : e.dateKey = d
    · subst hd
      simp only [hht, highAt]
      rw [if_pos (by simp)]
      rw [lookup_updateAssoc_self]
      simp [dayUpdate, hht]
    · have hne : d ≠ e.dateKey := fun hc => hd hc.symm
      simp only [highAt]
      rw [if_pos (by simp [hht])]
      rw [lookup_updateAssoc_other acc e.dateKey e.type e.toRec d hne]
      simp [hd]
  · by_cases hlt : e.type = "Low Tide"
    · by_cases hd : e.dateKey = d
      · subst hd
        simp only [highAt]
        rw [if_pos (by simp [hlt])]
        rw [lookup_updateAssoc_self]
        have hb : (e.type == "High Tide") = false := by simpa using hht
        cases hl : lookupDate acc e.dateKey <;>
          simp [dayUpdate, hb, hl, hht]
      · have hne : d ≠ e.dateKey := fun hc => hd hc.symm
        simp only [highAt]
        rw [if_pos (by simp [hlt])]
        rw [lookup_updateAssoc_other acc e.dateKey e.type e.toRec d hne]
        simp [hht]
    · have hg : (e.type == "High Tide" || e.type == "Low Tide") = false := by
        simp [hht, hlt]
      rw [if_neg (by simp [hg])]
      simp [hht]

/-- One loop step of the grouping, seen through the Low Tide slot of a
date: a Low Tide entry for that date overwrites the slot, every other
entry leaves it unchanged. -/
theorem lowAt_step (acc : List (TDate × DayTides)) (e : TideSummaryEntry) (d : TDate) :
    lowAt (if e.type == "High Tide" || e.type == "Low Tide"
           then updateAssoc acc e.dateKey e.type e.toRec else acc) d =
      (if e.type == "Low Tide" && e.dateKey == d then some e.toRec else none).or
        (lowAt acc d) := by
  by_cases hlt : e.type = "Low Tide"
  · have hb : (e.type == "High Tide") = false := by
      simp [hlt]
    by_cases hd : e.dateKey = d
    · subst hd
      simp only [lowAt]
      rw [if_pos (by simp [hlt])]
      rw [lookup_updateAssoc_self]
      simp [dayUpdate, hb, hlt]
    · have hne : d ≠ e.dateKey := fun hc => hd hc.symm
      simp only [lowAt]
      rw [if_pos (by simp [hlt])]
      rw [lookup_updateAssoc_other acc e.dateKey e.type e.toRec d hne]
      simp [hd]
  · by_cases hht : e.type = "High Tide"
    · by_cases hd : e.dateKey = d
      · subst hd
        simp only [lowAt]
        rw [if_pos (by simp [hht])]
        rw [lookup_updateAssoc_self]
        cases hl : lookupDate acc e.dateKey <;>
          simp [dayUpdate, hht, hl, hlt]
      · have hne : d ≠ e.dateKey := fun hc => hd hc.symm
        simp only [lowAt]
        rw [if_pos (by simp [hht])]
        rw [lookup_updateAssoc_other acc e.dateKey e.type e.toRec d hne]
        simp [hlt]
    · have hg : (e.type == "High Tide" || e.type == "Low Tide") = false := by
        simp [hht, hlt]
      rw [if_neg (by simp [hg])]
      simp [hlt]

/-- The High Tide slot recorded by the grouping loop is the record of the
last High Tide entry of the feed for that date, falling back to the
accumulator. -/
theorem highAt_aux (entries : List TideSummaryEntry) :
    ∀ (acc : List (TDate × DayTides)) (d : TDate),
      highAt (_format_tide_data_aux acc entries) d =
        (lastRecOf entries "High Tide" d).or (highAt acc d) := by
  induction entries with
  | nil => intro acc d; simp [_format_tide_data_aux, lastRecOf]
  | cons e rest ih =>
    intro acc d
    rw [_format_tide_data_aux, ih, lastRecOf_cons, Option.or_assoc]
    congr 1
    exact highAt_step acc e d

/-- The Low Tide slot recorded by the grouping loop is the record of the
last Low Tide entry of the feed for that date, falling back to the
accumulator. -/
theorem lowAt_aux (entries : List TideSummaryEntry) :
    ∀ (acc : List (TDate × DayTides)) (d : TDate),
      lowAt (_format_tide_data_aux acc entries) d =
        (lastRecOf entries "Low Tide" d).or (lowAt acc d) := by
  induction entries with
  | nil => intro acc d; simp [_format_tide_data_aux, lastRecOf]
  | cons e rest ih =>
    intro acc d
    rw [_format_tide_data_aux, ih, lastRecOf_cons, Option.or_assoc]
    congr 1
    exact lowAt_step acc e d

/-- Claim C9: each date maps to at most one High Tide and one Low Tide
record, and for each slot the grouping keeps exactly the record of the last
matching entry in feed order, later entries silently overwriting earlier
ones. -/
theorem C9_tide_last_entry_wins (entries : List TideSummaryEntry) (d : TDate) :
    highAt (_format_tide_data entries) d = lastRecOf entries "High Tide" d ∧
    lowAt (_format_tide_data entries) d = lastRecOf entries "Low Tide" d ∧
    ((_format_tide_data entries).map Prod.fst).Nodup := by
  refine ⟨?_, ?_, tide_aux_nodup entries [] (by simp)⟩
  · rw [_format_tide_data, highAt_aux]
    simp [highAt, lookupDate]
  · rw [_format_tide_data, lowAt_aux]
    simp [lowAt, lookupDate]

end AlaskanWeather
